import Mathlib

namespace Chat

/-!
Shallow embedding of the real-time chat core
(`server/controllers/socketHandlers.js` and the socket section of
`server/server.js`) and proofs about the properties claimed of it.

JavaScript objects used as dictionaries (`users`, `socketsByUser`,
`rooms`, `typingUsers`, `reactions`) are modelled as association lists
in insertion order (a new key is appended at the end, an existing key
is updated in place), matching JS object key ordering for string keys.
JS `Set` values are modelled as duplicate-free lists in insertion
order (`add` appends if absent, `delete` removes the element).
-/

/-- Association-list lookup (first pair whose key matches), as JS
property access `obj[k]` on an object used as a dictionary. -/
def alookup : List (String × α) → String → Option α
  | [], _ => none
  | p :: rest, k => if p.1 = k then some p.2 else alookup rest k

/-- Association-list assignment, as JS `obj[k] = v`: updates the
existing key in place, otherwise appends the new key at the end. -/
def aset : List (String × α) → String → α → List (String × α)
  | [], k, v => [(k, v)]
  | p :: rest, k, v => if p.1 = k then (k, v) :: rest else p :: aset rest k v

/-- Association-list key removal, as JS `delete obj[k]`. -/
def aerase (l : List (String × α)) (k : String) : List (String × α) :=
  l.filter (fun p => decide (p.1 ≠ k))

/-- JS `Set.prototype.add`: append the element if it is not present. -/
def sadd (s : List String) (x : String) : List String :=
  if x ∈ s then s else s ++ [x]

/-- JS `Set.prototype.delete`: remove the element (sets hold at most
one occurrence, so removing the first occurrence is exact). -/
def sdel (s : List String) (x : String) : List String :=
  s.erase x

/-- JS `x || null` on an optional string: the empty string is falsy
and collapses to `null`. -/
def jsOrNull : Option String → Option String
  | none => none
  | some s => if s = "" then none else some s

/-- JS `roomId || 'global'`: a missing or empty room id defaults to
the global room. -/
def jsOrGlobal : Option String → String
  | none => "global"
  | some s => if s = "" then "global" else s

/-- A chat message as built by `createMessage` in
`socketHandlers.js`: `reactions` is a JS object mapping a reaction
kind to the array of usernames that toggled it on. -/
structure Message where
  id : String
  text : Option String
  fileUrl : Option String
  sender : String
  senderId : String
  roomId : String
  isPrivate : Bool
  toUser : Option String
  timestamp : String
  readBy : List String
  reactions : List (String × List String)
deriving DecidableEq, Repr

/-- Addressing of an outbound emission: `io.emit` (all sockets),
`io.to(roomId).emit` (sockets in a room), `io.to(socketId).emit` or
`socket.emit` (a single socket). -/
inductive Target where
  | all : Target
  | room (roomId : String) : Target
  | sock (sid : String) : Target
deriving DecidableEq, Repr

/-- One outbound socket.io emission of `socketHandlers.js`. -/
inductive Event where
  | userJoined (t : Target) (username sid : String)
  | userList (t : Target) (entries : List (String × String))
  | notification (t : Target) (kind : String)
  | roomJoined (t : Target) (roomId sid : String)
  | roomLeft (t : Target) (roomId sid : String)
  | receiveMessage (t : Target) (m : Message)
  | privateMsg (t : Target) (m : Message)
  | ackOk (sid id ts : String)
  | ackPm (sid id : String)
  | ackErr (sid reason : String)
  | ackPage (sid : String) (msgs : List Message)
  | messageRead (t : Target) (messageId username : String)
  | messageReaction (t : Target) (messageId reaction username : String)
  | typingSnapshot (t : Target) (names : List String)
  | userLeft (t : Target) (username sid : String)
deriving DecidableEq, Repr

/-- The module-level mutable state of `socketHandlers.js`:
`users` (socketId → username; the stored `id` field always equals the
socket id and is kept implicit), `socketsByUser` (username → set of
socket ids), `messages`, `typingUsers` (socketId → username) and
`rooms` (roomId → set of socket ids). -/
structure ServerState where
  users : List (String × String)
  socketsByUser : List (String × List String)
  messages : List Message
  typingUsers : List (String × String)
  rooms : List (String × List String)
deriving DecidableEq, Repr

/-- The initial module state: all maps empty except
`rooms = { global: new Set() }`. -/
def initialState : ServerState :=
  { users := [], socketsByUser := [], messages := [], typingUsers := [],
    rooms := [("global", [])] }

/-- Socket ids currently registered to a username
(`socketsByUser[u]`, empty set when absent). -/
def socketsOf (st : ServerState) (username : String) : List String :=
  (alookup st.socketsByUser username).getD []

/-- Member sockets of a room (`rooms[r]`, empty set when absent). -/
def roomMembers (st : ServerState) (roomId : String) : List String :=
  (alookup st.rooms roomId).getD []

/-- Whether socket `c` is a member of room `r`. -/
def memberB (st : ServerState) (roomId c : String) : Bool :=
  decide (c ∈ roomMembers st roomId)

/-- Whether an emission with target `t` is delivered to socket `c`
(socket.io semantics: `io.emit` reaches every socket, `io.to(room)`
reaches the sockets that joined the room — mirrored in `rooms` — and
`io.to(sid)`/`socket.emit` reaches that socket). -/
def reaches (st : ServerState) (t : Target) (c : String) : Bool :=
  match t with
  | .all => true
  | .room r => memberB st r c
  | .sock s => decide (s = c)

/-- `getUserList()`: the user list deduplicated by username, keeping
the first socket seen for each username, in iteration order. -/
def dedupByName : List (String × String) → List String → List (String × String)
  | [], _ => []
  | (sid, name) :: rest, seen =>
    if name ∈ seen then dedupByName rest seen
    else (name, sid) :: dedupByName rest (name :: seen)

def getUserList (users : List (String × String)) : List (String × String) :=
  dedupByName users []

/-- `registerUser(socket, username, io)`: unconditionally stores the
session under the socket id, records the socket under the username,
joins the global room, and emits `user_joined`, `user_list` and a
join notification to everyone.  There is no duplicate-connection
check: an existing entry for the same socket id is overwritten. -/
def registerUser (st : ServerState) (sid username : String) :
    ServerState × List Event :=
  let users' := aset st.users sid username
  let sbu' := aset st.socketsByUser username (sadd (socketsOf st username) sid)
  let rooms' := aset st.rooms "global" (sadd (roomMembers st "global") sid)
  ({ st with users := users', socketsByUser := sbu', rooms := rooms' },
   [.userJoined .all username sid,
    .userList .all (getUserList users'),
    .notification .all "join"])

/-- `join_room` handler: guard on a falsy roomId, create the room set
lazily, add the socket, emit `room_joined` to the room and a
notification to everyone. -/
def joinRoomHandler (st : ServerState) (sid roomId : String) :
    ServerState × List Event :=
  if roomId = "" then (st, [])
  else
    let rooms' := aset st.rooms roomId (sadd (roomMembers st roomId) sid)
    ({ st with rooms := rooms' },
     [.roomJoined (.room roomId) roomId sid,
      .notification .all "room_join"])

/-- `leave_room` handler: guard on a falsy roomId, delete the socket
from the room set if the room exists (`rooms[roomId]?.delete`), emit
`room_left` to the room. -/
def leaveRoomHandler (st : ServerState) (sid roomId : String) :
    ServerState × List Event :=
  if roomId = "" then (st, [])
  else
    let rooms' :=
      match alookup st.rooms roomId with
      | none => st.rooms
      | some mem => aset st.rooms roomId (sdel mem sid)
    ({ st with rooms := rooms' },
     [.roomLeft (.room roomId) roomId sid])

/-- The `send_message` payload `{ text, roomId, fileUrl }`. -/
structure SendPayload where
  text : Option String
  roomId : Option String
  fileUrl : Option String
deriving DecidableEq, Repr

/-- `send_message` handler: reject unauthenticated senders with an
error ack; otherwise build the message via `createMessage` (fresh id
and timestamp are parameters of the embedding, standing for
`Date.now()`), push it, drop the oldest stored message when the list
exceeds 2000, broadcast `receive_message` to the room, ack the sender
with the canonical id and timestamp, and emit a notification. -/
def sendMessageHandler (st : ServerState) (sid : String) (p : SendPayload)
    (newId newTs : String) : ServerState × List Event :=
  match alookup st.users sid with
  | none => (st, [.ackErr sid "not_authenticated"])
  | some username =>
    let msg : Message :=
      { id := newId, text := jsOrNull p.text, fileUrl := jsOrNull p.fileUrl,
        sender := username, senderId := sid, roomId := jsOrGlobal p.roomId,
        isPrivate := false, toUser := none, timestamp := newTs,
        readBy := [], reactions := [] }
    let msgs1 := st.messages ++ [msg]
    let msgs2 := if 2000 < msgs1.length then msgs1.tail else msgs1
    ({ st with messages := msgs2 },
     [.receiveMessage (.room msg.roomId) msg,
      .ackOk sid newId newTs,
      .notification .all "message"])

/-- `private_message` handler: reject unauthenticated senders;
otherwise build a private message (`createMessage` defaults its
`roomId` to `'global'`), push it (no length cap on this path), emit
`private_message` to every socket of the recipient username, echo it
to the sending socket only (`socket.emit`), ack the sender, and send
a notification to each recipient socket. -/
def privateMessageHandler (st : ServerState) (sid toUser : String)
    (text fileUrl : Option String) (newId newTs : String) :
    ServerState × List Event :=
  match alookup st.users sid with
  | none => (st, [.ackErr sid "not_authenticated"])
  | some username =>
    let msg : Message :=
      { id := newId, text := jsOrNull text, fileUrl := jsOrNull fileUrl,
        sender := username, senderId := sid, roomId := "global",
        isPrivate := true, toUser := some toUser, timestamp := newTs,
        readBy := [], reactions := [] }
    let recSockets := socketsOf st toUser
    ({ st with messages := st.messages ++ [msg] },
     recSockets.map (fun s => Event.privateMsg (.sock s) msg)
       ++ [.privateMsg (.sock sid) msg, .ackPm sid newId]
       ++ recSockets.map (fun s => Event.notification (.sock s) "private_message"))

/-- `typing` handler: ignore unregistered sockets; on
`isTyping = true` record the username in the module-level
`typingUsers` map (keyed by socket id only — there is no room key),
on `false` delete the entry; then emit `typing_users` to the target
room with `Object.values(typingUsers)`, the names of every socket
currently typing anywhere on the server. -/
def typingHandler (st : ServerState) (sid roomId : String) (isTyping : Bool) :
    ServerState × List Event :=
  match alookup st.users sid with
  | none => (st, [])
  | some username =>
    let tu := if isTyping then aset st.typingUsers sid username
              else aerase st.typingUsers sid
    ({ st with typingUsers := tu },
     [.typingSnapshot (.room roomId) (tu.map Prod.snd)])

/-- In-place mutation of the first message with a given id, as the JS
handlers mutate the object returned by `messages.find(...)`. -/
def updateFirst (msgs : List Message) (mid : String) (f : Message → Message) :
    List Message :=
  match msgs with
  | [] => []
  | m :: rest => if m.id = mid then f m :: rest else m :: updateFirst rest mid f

/-- `messages.find((mm) => mm.id === messageId)`. -/
def findMsg (msgs : List Message) (mid : String) : Option Message :=
  msgs.find? (fun m => m.id = mid)

/-- `message_read` handler: find the message (silently return when
absent); push the username onto `readBy` only when not already
present; then — unconditionally — notify: the sender's sockets for a
private message, the whole room (`m.roomId || 'global'`) otherwise. -/
def messageReadHandler (st : ServerState) (messageId username : String) :
    ServerState × List Event :=
  match findMsg st.messages messageId with
  | none => (st, [])
  | some m =>
    let st' :=
      if username ∈ m.readBy then st
      else { st with messages := (updateFirst st.messages messageId
              (fun mm => { mm with readBy := mm.readBy ++ [username] })) }
    let evs :=
      if m.isPrivate then
        (socketsOf st m.sender).map
          (fun s => Event.messageRead (.sock s) messageId username)
      else
        [Event.messageRead (.room (if m.roomId = "" then "global" else m.roomId))
          messageId username]
    (st', evs)

/-- The toggle on one reaction array:
`indexOf === -1 ? push : splice` — append the username if absent,
remove its first occurrence otherwise. -/
def toggleList (lst : List String) (username : String) : List String :=
  if username ∈ lst then lst.erase username else lst ++ [username]

/-- `message_reaction` handler: find the message (silently return
when absent); ensure `reactions[reaction]` exists, toggle the
username in it; then broadcast `message_reaction` — for a private
message to every socket of `m.toUser` and of `m.sender`, otherwise
to the message's room. -/
def messageReactionHandler (st : ServerState)
    (messageId reaction username : String) : ServerState × List Event :=
  match findMsg st.messages messageId with
  | none => (st, [])
  | some m =>
    let lst := (alookup m.reactions reaction).getD []
    let st' := { st with messages := (updateFirst st.messages messageId
        (fun mm => { mm with
          reactions := aset mm.reactions reaction (toggleList lst username) })) }
    let evs :=
      if m.isPrivate then
        ((socketsOf st (m.toUser.getD "")) ++ (socketsOf st m.sender)).map
          (fun s => Event.messageReaction (.sock s) messageId reaction username)
      else
        [Event.messageReaction (.room m.roomId) messageId reaction username]
    (st', evs)

/-- JS `Array.prototype.slice` index normalization: a negative index
counts from the end (clamped at 0), a non-negative one is clamped at
the length.  In particular `-0` is `0`, so `slice(-0)` is the whole
array. -/
def jsIdx (len : Nat) (i : Int) : Nat :=
  if i < 0 then (max ((len : Int) + i) 0).toNat else (min i (len : Int)).toNat

/-- JS `list.slice(a, b)` with integer arguments. -/
def jsSlice2 (l : List α) (a b : Int) : List α :=
  (l.take (jsIdx l.length b)).drop (jsIdx l.length a)

/-- JS `list.slice(a)` (up to the end of the array). -/
def jsSliceFrom (l : List α) (a : Int) : List α :=
  jsSlice2 l a (l.length : Int)

/-- `load_older` pagination: filter the store to the room's
non-private messages; with a falsy cursor return `slice(-limit)` (the
most recent `limit`, oldest-first); with a cursor, look up its index
in the filtered list and return `slice(max(0, idx - limit), idx)`,
falling back to `slice(-limit)` when the cursor is not found. -/
def loadOlder (msgs : List Message) (roomId : String)
    (beforeId : Option String) (limit : Int) : List Message :=
  let list := msgs.filter (fun m => m.roomId = roomId && !m.isPrivate)
  match beforeId with
  | none => jsSliceFrom list (-limit)
  | some b =>
    if b = "" then jsSliceFrom list (-limit)
    else
      match list.findIdx? (fun m => m.id = b) with
      | none => jsSliceFrom list (-limit)
      | some idx => jsSlice2 list (max 0 ((idx : Int) - limit)) (idx : Int)

/-- `load_older` handler: always acks `{ status: 'ok', messages }`,
never an error, regardless of cursor or room. -/
def loadOlderHandler (st : ServerState) (sid roomId : String)
    (beforeId : Option String) (limit : Int) : ServerState × List Event :=
  (st, [.ackPage sid (loadOlder st.messages roomId beforeId limit)])

/-- `disconnect` handler: for a registered socket, remove it from
`socketsByUser` (dropping the username key when its set empties),
from `users` and `typingUsers`, and from every room set; then emit
`user_left`, a fresh `user_list` and a global typing snapshot. -/
def disconnectHandler (st : ServerState) (sid : String) :
    ServerState × List Event :=
  match alookup st.users sid with
  | none => (st, [])
  | some username =>
    let sbu1 :=
      match alookup st.socketsByUser username with
      | none => st.socketsByUser
      | some s => aset st.socketsByUser username (sdel s sid)
    let sbu2 :=
      match alookup sbu1 username with
      | some [] => aerase sbu1 username
      | _ => sbu1
    let users' := aerase st.users sid
    let tu := aerase st.typingUsers sid
    let rooms' := st.rooms.map (fun p => (p.1, sdel p.2 sid))
    ({ users := users', socketsByUser := sbu2, messages := st.messages,
       typingUsers := tu, rooms := rooms' },
     [.userLeft .all username sid,
      .userList .all (getUserList users'),
      .typingSnapshot .all (tu.map Prod.snd)])

/-! ### The persistence-aware handlers of `server/server.js`

In `server.js` persistence goes through MongoDB (`Message.create`)
inside `try { ... } catch (err) { console.error(...) }`.  The store
is external, so its outcome is a parameter of the embedding.  A
handler run is modelled as the ordered trace of its observable steps,
which records what happens before what. -/

/-- Outcome of the awaited `Message.create` call. -/
inductive PersistOutcome where
  | ok (id ts : String)
  | failed (err : String)
deriving DecidableEq, Repr

/-- One observable step of a `server.js` send handler run. -/
inductive SrvStep where
  | persistAttempt
  | persistOk
  | persistFailed
  | deliverRoom (roomId : String)
  | deliverSock (sid : String)
  | logError
deriving DecidableEq, Repr

/-- `server.js` `send_message`: `await Message.create(messageObj)`
then `io.to(room).emit('receive_message', saved)`; on a rejected
create the catch block only logs — no emission of any kind, in
particular no error ack to the sender (the handler takes no ack
callback at all). -/
def srvSendMessageTrace (room : String) (persist : PersistOutcome) :
    List SrvStep :=
  match persist with
  | .ok _ _ => [.persistAttempt, .persistOk, .deliverRoom room]
  | .failed _ => [.persistAttempt, .persistFailed, .logError]

/-- `server.js` `private_message`: `await Message.create(msg)` then
`socket.emit('private_message', saved)` and
`io.to(to).emit('private_message', saved)`; on failure the catch
block only logs. -/
def srvPrivateMessageTrace (senderSock toSock : String)
    (persist : PersistOutcome) : List SrvStep :=
  match persist with
  | .ok _ _ =>
    [.persistAttempt, .persistOk, .deliverSock senderSock, .deliverSock toSock]
  | .failed _ => [.persistAttempt, .persistFailed, .logError]

/-- Whether a trace step is a delivery emission. -/
def SrvStep.isDeliver : SrvStep → Bool
  | .deliverRoom _ => true
  | .deliverSock _ => true
  | _ => false

/-- The emissions of a `server.js` send handler run that are visible
to any connected socket (delivery events; there is no error channel
in these handlers). -/
def srvEmits (trace : List SrvStep) : List SrvStep :=
  trace.filter SrvStep.isDeliver

/-! ## Room membership algebra (join_room / leave_room) -/

/-- One membership operation on a fixed (room, connection) pair:
`true` is a `join_room`, `false` a `leave_room`. -/
def roomOp (sid roomId : String) (st : ServerState) (b : Bool) : ServerState :=
  if b then (joinRoomHandler st sid roomId).1 else (leaveRoomHandler st sid roomId).1

/-- A sequence of join/leave operations applied in order. -/
def applyRoomOps (sid roomId : String) (st : ServerState) (ops : List Bool) :
    ServerState :=
  ops.foldl (roomOp sid roomId) st

/-! ## Room fan-out (send_message) -/

/-- How many copies of the `receive_message` event carrying the
canonical id and timestamp are delivered to socket `c`, given the
room membership in force at emission time. -/
def receiveCopies (st : ServerState) (evs : List Event) (mid ts c : String) :
    Nat :=
  (evs.filter (fun e =>
    match e with
    | .receiveMessage t m => reaches st t c && (m.id == mid) && (m.timestamp == ts)
    | _ => false)).length

/-! ## Private-message fan-out (private_message) -/

/-- How many `private_message` event copies are delivered to
socket `c`. -/
def pmCopies (st : ServerState) (evs : List Event) (c : String) : Nat :=
  (evs.filter (fun e =>
    match e with
    | .privateMsg t _ => reaches st t c
    | _ => false)).length

/-- The set of interested parties the reaction broadcast is addressed
to: room members for a room-scoped message, the sockets of the target
and of the sender for a private one. -/
def reactionTargets (st : ServerState) (m : Message) : List Target :=
  if m.isPrivate then
    ((socketsOf st (m.toUser.getD "")) ++ (socketsOf st m.sender)).map Target.sock
  else [Target.room m.roomId]

/-- The reaction lists of the stored message with id `mid`, per kind. -/
def reactionsOfMsg (st : ServerState) (mid k : String) : List String :=
  ((findMsg st.messages mid).map
    (fun m => (alookup m.reactions k).getD [])).getD []

/-! ## Message retention (the 2000-message cap) -/

/-- A stored room message used to exercise the retention cap. -/
def mA : Message :=
  { id := "a", text := some "x", fileUrl := none, sender := "alice",
    senderId := "s1", roomId := "global", isPrivate := false, toUser := none,
    timestamp := "t0", readBy := [], reactions := [] }

/-- A second stored message, distinct from `mA`. -/
def mB : Message := { mA with id := "b" }

/-- The message `send_message` builds for the payload
`{ text: "hi" }` with fresh id `n1` and timestamp `t9`. -/
def msgN : Message :=
  { id := "n1", text := some "hi", fileUrl := none, sender := "alice",
    senderId := "s1", roomId := "global", isPrivate := false, toUser := none,
    timestamp := "t9", readBy := [], reactions := [] }

/-- A server state already holding 2000 messages, the oldest `mA`. -/
def capState : ServerState :=
  { users := [("s1", "alice")], socketsByUser := [("alice", ["s1"])],
    messages := mA :: List.replicate 1999 mB, typingUsers := [],
    rooms := [("global", ["s1"])] }

/-! ## Pagination (load_older) -/

/-- The most recent `n` elements of a list, in stored (oldest-first)
order. -/
def lastN (n : Nat) (l : List α) : List α :=
  l.drop (l.length - n)

/-- Modelled from the spec's wording of `page(roomId, cursor,
pageSize)`, for comparison with the implementation: restrict to the
room's non-private history; a null cursor yields the most recent
`pageSize`; a found cursor yields the most recent `pageSize` of the
strictly older entries; an unknown cursor falls back to the most
recent `pageSize`. -/
def pageSpec (msgs : List Message) (roomId : String) (cursor : Option String)
    (pageSize : Nat) : List Message :=
  let hist := msgs.filter (fun m => m.roomId = roomId && !m.isPrivate)
  match cursor with
  | none => lastN pageSize hist
  | some b =>
    match hist.findIdx? (fun m => m.id = b) with
    | none => lastN pageSize hist
    | some idx => lastN pageSize (hist.take idx)

@[simp]
theorem alookup_nil (k : String) : alookup ([] : List (String × α)) k = none := rfl

theorem alookup_aset (l : List (String × α)) (k k' : String) (v : α) :
    alookup (aset l k v) k' = if k' = k then some v else alookup l k' := by
  induction l with
  | nil =>
    by_cases h : k' = k
    · subst h; simp [aset, alookup]
    · simp [aset, alookup, h, Ne.symm h]
  | cons p rest ih =>
    by_cases hp : p.1 = k
    · rw [show aset (p :: rest) k v = (k, v) :: rest by simp [aset, hp]]
      by_cases h : k' = k
      · subst h; simp [alookup]
      · have hpk' : ¬p.1 = k' := fun hh => h (hh.symm.trans hp)
        simp [alookup, h, hp, hpk', Ne.symm h]
    · rw [show aset (p :: rest) k v = p :: aset rest k v by simp [aset, hp]]
      by_cases hpk' : p.1 = k'
      · have h : ¬k' = k := fun hh => hp (hpk'.trans hh)
        simp [alookup, hpk', h]
      · simp [alookup, hpk', ih]

theorem aset_self (l : List (String × α)) (k : String) (v : α)
    (h : alookup l k = some v) : aset l k v = l := by
  induction l with
  | nil => simp [alookup] at h
  | cons p rest ih =>
    by_cases hp : p.1 = k
    · simp only [alookup, if_pos hp] at h
      obtain ⟨p1, p2⟩ := p
      simp only at hp
      simp only [Option.some.injEq] at h
      simp [aset, hp, h]
    · simp only [alookup, if_neg hp] at h
      simp [aset, hp, ih h]

theorem mem_sadd_self (s : List String) (x : String) : x ∈ sadd s x := by
  by_cases h : x ∈ s <;> simp [sadd, h]

theorem count_sadd_le_one (s : List String) (x : String)
    (h : s.count x ≤ 1) : (sadd s x).count x ≤ 1 := by
  by_cases hx : x ∈ s
  · simpa [sadd, hx] using h
  · have : s.count x = 0 := List.count_eq_zero.mpr hx
    simp [sadd, hx, List.count_append, this]

theorem count_sdel_le_one (s : List String) (x : String)
    (h : s.count x ≤ 1) : (sdel s x).count x ≤ 1 := by
  have := List.count_erase_self x s
  simp only [sdel, this]
  omega

theorem not_mem_sdel_of_count_le_one (s : List String) (x : String)
    (h : s.count x ≤ 1) : x ∉ sdel s x := by
  intro hmem
  have h1 := List.count_erase_self x s
  have h2 : 0 < (s.erase x).count x := List.count_pos_iff.mpr hmem
  simp only [sdel] at hmem
  omega

theorem sdel_of_not_mem (s : List String) (x : String) (h : x ∉ s) :
    sdel s x = s := List.erase_of_not_mem h

theorem roomOp_true (st : ServerState) (sid roomId : String) :
    roomOp sid roomId st true = (joinRoomHandler st sid roomId).1 := rfl

theorem roomOp_false (st : ServerState) (sid roomId : String) :
    roomOp sid roomId st false = (leaveRoomHandler st sid roomId).1 := rfl

theorem roomMembers_join (st : ServerState) (sid roomId : String)
    (h : roomId ≠ "") :
    roomMembers (joinRoomHandler st sid roomId).1 roomId =
      sadd (roomMembers st roomId) sid := by
  simp [joinRoomHandler, if_neg h, roomMembers, alookup_aset]

theorem memberB_join (st : ServerState) (sid roomId : String) (h : roomId ≠ "") :
    memberB (joinRoomHandler st sid roomId).1 roomId sid = true := by
  simp only [memberB, roomMembers_join st sid roomId h, decide_eq_true_eq]
  exact mem_sadd_self _ _

theorem memberB_leave (st : ServerState) (sid roomId : String) (h : roomId ≠ "")
    (hc : (roomMembers st roomId).count sid ≤ 1) :
    memberB (leaveRoomHandler st sid roomId).1 roomId sid = false := by
  simp only [leaveRoomHandler, if_neg h]
  cases hm : alookup st.rooms roomId with
  | none =>
    simp [memberB, roomMembers, hm]
  | some mem =>
    rw [roomMembers, hm, Option.getD_some] at hc
    have := not_mem_sdel_of_count_le_one mem sid hc
    simp [memberB, roomMembers, alookup_aset, this]

theorem count_roomOp (st : ServerState) (sid roomId : String) (b : Bool)
    (h : roomId ≠ "") (hc : (roomMembers st roomId).count sid ≤ 1) :
    (roomMembers (roomOp sid roomId st b) roomId).count sid ≤ 1 := by
  cases b with
  | true =>
    rw [roomOp_true, roomMembers_join st sid roomId h]
    exact count_sadd_le_one _ _ hc
  | false =>
    rw [roomOp_false]
    simp only [leaveRoomHandler, if_neg h]
    cases hm : alookup st.rooms roomId with
    | none => simp [roomMembers, hm]
    | some mem =>
      rw [roomMembers, hm, Option.getD_some] at hc
      have := count_sdel_le_one mem sid hc
      simpa [roomMembers, alookup_aset] using this

theorem memberB_roomOp (st : ServerState) (sid roomId : String) (b : Bool)
    (h : roomId ≠ "") (hc : (roomMembers st roomId).count sid ≤ 1) :
    memberB (roomOp sid roomId st b) roomId sid = b := by
  cases b with
  | true => rw [roomOp_true]; exact memberB_join st sid roomId h
  | false => rw [roomOp_false]; exact memberB_leave st sid roomId h hc

theorem memberB_applyRoomOps (sid roomId : String) (ops : List Bool)
    (st : ServerState) (h : roomId ≠ "")
    (hc : (roomMembers st roomId).count sid ≤ 1) :
    memberB (applyRoomOps sid roomId st ops) roomId sid =
      ops.getLast?.getD (memberB st roomId sid) := by
  induction ops generalizing st with
  | nil => rfl
  | cons b rest ih =>
    have hstep : applyRoomOps sid roomId st (b :: rest) =
        applyRoomOps sid roomId (roomOp sid roomId st b) rest := rfl
    rw [hstep, ih (roomOp sid roomId st b) (count_roomOp st sid roomId b h hc)]
    cases rest with
    | nil =>
      simp only [List.getLast?_singleton, Option.getD_some, List.getLast?_nil,
        Option.getD_none]
      exact memberB_roomOp st sid roomId b h hc
    | cons r rs =>
      rw [List.getLast?_cons_cons]
      cases hlast : (r :: rs).getLast? with
      | none => simp at hlast
      | some x => rfl

theorem join_mem_noop (st : ServerState) (sid roomId : String)
    (hmem : memberB st roomId sid = true) :
    (joinRoomHandler st sid roomId).1 = st := by
  by_cases hr : roomId = ""
  · simp [joinRoomHandler, hr]
  · cases hm : alookup st.rooms roomId with
    | none =>
      rw [memberB, roomMembers, hm] at hmem
      simp at hmem
    | some mem =>
      rw [memberB, roomMembers, hm, Option.getD_some, decide_eq_true_eq] at hmem
      have hs : sadd (roomMembers st roomId) sid = mem := by
        rw [roomMembers, hm, Option.getD_some, sadd, if_pos hmem]
      simp only [joinRoomHandler, if_neg hr, hs, aset_self st.rooms roomId mem hm]

theorem leave_notmem_noop (st : ServerState) (sid roomId : String)
    (hmem : memberB st roomId sid = false) :
    (leaveRoomHandler st sid roomId).1 = st := by
  by_cases hr : roomId = ""
  · simp [leaveRoomHandler, hr]
  · cases hm : alookup st.rooms roomId with
    | none => simp [leaveRoomHandler, hr, hm]
    | some mem =>
      rw [memberB, roomMembers, hm, Option.getD_some, decide_eq_false_iff_not] at hmem
      have hs : sdel mem sid = mem := sdel_of_not_mem mem sid hmem
      simp only [leaveRoomHandler, if_neg hr, hm, hs,
        aset_self st.rooms roomId mem hm]

/-- C7: for all sequences of join and leave operations on the same
(room, connection) pair, the final membership equals the net effect
of the operations applied in order (the last operation decides it,
and an empty sequence leaves membership unchanged); joining an
already-joined room is a no-op on the server state, and leaving a
room that was not joined is a no-op on the server state. -/
theorem join_leave_net_effect (st : ServerState) (sid roomId : String)
    (h : roomId ≠ "") (hc : (roomMembers st roomId).count sid ≤ 1) :
    (∀ ops : List Bool,
      memberB (applyRoomOps sid roomId st ops) roomId sid =
        ops.getLast?.getD (memberB st roomId sid)) ∧
    (memberB st roomId sid = true → (joinRoomHandler st sid roomId).1 = st) ∧
    (memberB st roomId sid = false → (leaveRoomHandler st sid roomId).1 = st) :=
  ⟨fun ops => memberB_applyRoomOps sid roomId ops st h hc,
   join_mem_noop st sid roomId,
   leave_notmem_noop st sid roomId⟩

theorem join_leave_net_effect_witness :
    memberB (applyRoomOps "s1" "roomA" initialState [true, true, false])
        "roomA" "s1" = false ∧
    (leaveRoomHandler initialState "s1" "roomA").1 = initialState := by
  have h := join_leave_net_effect initialState "s1" "roomA"
    (by decide) (by decide)
  exact ⟨(h.1 [true, true, false]).trans (by decide), h.2.2 (by decide)⟩

/-- C2: for every room message whose persistence completes, every
connection that is a member of the target room at that moment
receives exactly one copy of the message carrying the assigned id and
timestamp, non-members receive zero copies, the sender's own
connection (when a member) receives exactly one copy, and the
handler does not change room membership. -/
theorem send_message_room_delivery (st : ServerState) (sid : String)
    (p : SendPayload) (newId newTs u : String)
    (h : alookup st.users sid = some u) :
    (∀ c, receiveCopies st (sendMessageHandler st sid p newId newTs).2 newId newTs c
        = if memberB st (jsOrGlobal p.roomId) c then 1 else 0) ∧
    (memberB st (jsOrGlobal p.roomId) sid = true →
      receiveCopies st (sendMessageHandler st sid p newId newTs).2 newId newTs sid
        = 1) ∧
    (sendMessageHandler st sid p newId newTs).1.rooms = st.rooms := by
  have hcount : ∀ c,
      receiveCopies st (sendMessageHandler st sid p newId newTs).2 newId newTs c
        = if memberB st (jsOrGlobal p.roomId) c then 1 else 0 := by
    intro c
    simp only [sendMessageHandler, h, receiveCopies, reaches]
    cases hm : memberB st (jsOrGlobal p.roomId) c <;>
      simp [List.filter, hm]
  exact ⟨hcount, fun hmem => by rw [hcount sid, if_pos hmem],
    by simp only [sendMessageHandler, h]⟩

theorem send_message_room_delivery_witness :
    receiveCopies (registerUser initialState "s1" "alice").1
      (sendMessageHandler (registerUser initialState "s1" "alice").1 "s1"
        ⟨some "hi", none, none⟩ "m1" "t1").2 "m1" "t1" "s1" = 1 := by
  have h := send_message_room_delivery (registerUser initialState "s1" "alice").1
    "s1" ⟨some "hi", none, none⟩ "m1" "t1" "alice" (by decide)
  exact h.2.1 (by decide)

theorem pmCopies_append (st : ServerState) (a b : List Event) (c : String) :
    pmCopies st (a ++ b) c = pmCopies st a c + pmCopies st b c := by
  simp [pmCopies, List.filter_append]

theorem pmCopies_cons_pm (st : ServerState) (t : Target) (msg : Message)
    (evs : List Event) (c : String) :
    pmCopies st (Event.privateMsg t msg :: evs) c =
      (if reaches st t c then 1 else 0) + pmCopies st evs c := by
  by_cases h : reaches st t c = true
  · simp [pmCopies, List.filter_cons, h, Nat.add_comm]
  · simp [pmCopies, List.filter_cons, h]

theorem pmCopies_sock_map (st : ServerState) (msg : Message) (l : List String)
    (c : String) :
    pmCopies st (l.map (fun s => Event.privateMsg (.sock s) msg)) c =
      l.count c := by
  induction l with
  | nil => rfl
  | cons s rest ih =>
    rw [List.map_cons, pmCopies_cons_pm st _ _ _ c, ih]
    by_cases hs : s = c
    · simp [reaches, hs, List.count_cons]
      omega
    · simp [reaches, hs, List.count_cons, Ne.symm hs]

theorem pmCopies_notif_map (st : ServerState) (k : String) (l : List String)
    (c : String) :
    pmCopies st (l.map (fun s => Event.notification (.sock s) k)) c = 0 := by
  induction l with
  | nil => rfl
  | cons s rest ih =>
    rw [List.map_cons]
    simp [pmCopies, List.filter_cons]

/-- C3 counterexample: "alice" is registered on two sockets `a1` and
`a2`, "carol" on `c1`; `a1` sends a private message to "carol".  The
sender's other device `a2` — a connection owned by the sender's
principal — receives zero copies, refuting that every connection of
the sender's principal receives exactly one copy (the code echoes
only to the sending socket). -/
theorem private_message_counterexample :
    "a2" ∈ socketsOf ((registerUser (registerUser (registerUser initialState
        "a1" "alice").1 "a2" "alice").1 "c1" "carol").1) "alice" ∧
    pmCopies ((registerUser (registerUser (registerUser initialState
        "a1" "alice").1 "a2" "alice").1 "c1" "carol").1)
      (privateMessageHandler ((registerUser (registerUser (registerUser
          initialState "a1" "alice").1 "a2" "alice").1 "c1" "carol").1)
        "a1" "carol" (some "hi") none "m1" "t1").2 "a2" = 0 := by
  decide

/-- C3 (amended): after a private message from a registered sender,
every connection registered to the target username receives exactly
one copy, the sender's sending connection receives exactly one echo
copy (two in total when the sender is its own target), and no other
connection receives any copy.  The sender's other devices are not
echoed to. -/
theorem private_message_delivery (st : ServerState)
    (sid toUser : String) (text fileUrl : Option String) (newId newTs u : String)
    (h : alookup st.users sid = some u) (hnd : (socketsOf st toUser).Nodup) :
    ∀ c, pmCopies st
        (privateMessageHandler st sid toUser text fileUrl newId newTs).2 c =
      (if c ∈ socketsOf st toUser then 1 else 0) + (if sid = c then 1 else 0) := by
  intro c
  simp only [privateMessageHandler, h]
  rw [pmCopies_append, pmCopies_append, pmCopies_sock_map, pmCopies_notif_map]
  have hmid : pmCopies st [Event.privateMsg (.sock sid)
      { id := newId, text := jsOrNull text, fileUrl := jsOrNull fileUrl,
        sender := u, senderId := sid, roomId := "global", isPrivate := true,
        toUser := some toUser, timestamp := newTs, readBy := [], reactions := [] },
      Event.ackPm sid newId] c = if sid = c then 1 else 0 := by
    by_cases hs : sid = c <;> simp [pmCopies, List.filter_cons, reaches, hs]
  rw [hmid]
  by_cases hmem : c ∈ socketsOf st toUser
  · rw [if_pos hmem, List.count_eq_one_of_mem hnd hmem]
    omega
  · rw [if_neg hmem, List.count_eq_zero.mpr hmem]
    omega

theorem private_message_delivery_witness :
    pmCopies ((registerUser (registerUser (registerUser initialState
        "a1" "alice").1 "a2" "alice").1 "c1" "carol").1)
      (privateMessageHandler ((registerUser (registerUser (registerUser
          initialState "a1" "alice").1 "a2" "alice").1 "c1" "carol").1)
        "a1" "carol" (some "hi") none "m1" "t1").2 "c1" = 1 := by
  have h := private_message_delivery ((registerUser (registerUser (registerUser
      initialState "a1" "alice").1 "a2" "alice").1 "c1" "carol").1)
    "a1" "carol" (some "hi") none "m1" "t1" "alice" (by decide) (by decide)
  exact (h "c1").trans (by decide)

/-! ## Registration (user_join / registerUser) -/

/-- C4 counterexample: socket `c1` registers as "alice" and then
registers again as "bob".  The second registration does not fail: it
silently overwrites the stored session (the lookup now yields "bob")
and emits the ordinary join events — there is no
`DuplicateConnection` rejection anywhere in `registerUser`. -/
theorem register_duplicate_counterexample :
    alookup ((registerUser initialState "c1" "alice").1).users "c1" =
        some "alice" ∧
    alookup ((registerUser ((registerUser initialState "c1" "alice").1)
        "c1" "bob").1).users "c1" = some "bob" ∧
    (registerUser ((registerUser initialState "c1" "alice").1) "c1" "bob").2 =
      [.userJoined .all "bob" "c1", .userList .all [("bob", "c1")],
       .notification .all "join"] := by
  decide

/-- C4 (amended): re-registering an already registered connectionId
never fails: the session entry is silently overwritten with the new
identity, the connection is recorded under the new username while it
also stays recorded under the previous username in `socketsByUser`
(the corruption the spec's defensive check was meant to prevent), and
the connection remains a member of the global room. -/
theorem register_duplicate_overwrites (st : ServerState) (sid u1 u2 : String) :
    alookup ((registerUser ((registerUser st sid u1).1) sid u2).1).users sid =
        some u2 ∧
    sid ∈ socketsOf ((registerUser ((registerUser st sid u1).1) sid u2).1) u2 ∧
    sid ∈ socketsOf ((registerUser ((registerUser st sid u1).1) sid u2).1) u1 ∧
    memberB ((registerUser ((registerUser st sid u1).1) sid u2).1) "global" sid
      = true := by
  refine ⟨?_, ?_, ?_, ?_⟩
  · simp [registerUser, alookup_aset]
  · simp only [registerUser, socketsOf, alookup_aset, if_pos rfl,
      Option.getD_some]
    exact mem_sadd_self _ _
  · by_cases h12 : u1 = u2
    · subst h12
      simp only [registerUser, socketsOf, alookup_aset, if_pos rfl,
        Option.getD_some]
      exact mem_sadd_self _ _
    · simp only [registerUser, socketsOf, alookup_aset, if_neg h12, if_pos rfl,
        Option.getD_some]
      exact mem_sadd_self _ _
  · simp only [registerUser, memberB, roomMembers, alookup_aset, if_pos rfl,
      Option.getD_some, decide_eq_true_eq]
    exact mem_sadd_self _ _

/-! ## Read receipts (message_read) -/

theorem findMsg_cons (m : Message) (rest : List Message) (mid : String) :
    findMsg (m :: rest) mid = if m.id = mid then some m else findMsg rest mid := by
  by_cases h : m.id = mid <;> simp [findMsg, List.find?, h]

theorem findMsg_updateFirst (msgs : List Message) (mid : String)
    (f : Message → Message) (hf : ∀ m, (f m).id = m.id) :
    findMsg (updateFirst msgs mid f) mid = (findMsg msgs mid).map f := by
  induction msgs with
  | nil => rfl
  | cons m rest ih =>
    by_cases h : m.id = mid
    · rw [show updateFirst (m :: rest) mid f = f m :: rest by
          simp [updateFirst, h],
        findMsg_cons, findMsg_cons, if_pos ((hf m).trans h), if_pos h]
      rfl
    · rw [show updateFirst (m :: rest) mid f = m :: updateFirst rest mid f by
          simp [updateFirst, h],
        findMsg_cons, findMsg_cons, if_neg h, if_neg h]
      exact ih

/-- C5 counterexample: "alice" sends "hi" to the global room, "bob"
marks it read twice.  The second `message_read` leaves `readBy`
unchanged at `["bob"]` but still emits a `message_read` notification
to the whole room, refuting that no new read notification is emitted
on a repeated markRead. -/
theorem message_read_counterexample :
    (findMsg ((messageReadHandler (sendMessageHandler (registerUser
        initialState "s1" "alice").1 "s1" ⟨some "hi", none, none⟩
        "m1" "t1").1 "m1" "bob").1).messages "m1").map Message.readBy =
      some ["bob"] ∧
    (findMsg ((messageReadHandler ((messageReadHandler (sendMessageHandler
        (registerUser initialState "s1" "alice").1 "s1"
        ⟨some "hi", none, none⟩ "m1" "t1").1 "m1" "bob").1)
        "m1" "bob").1).messages "m1").map Message.readBy = some ["bob"] ∧
    (messageReadHandler ((messageReadHandler (sendMessageHandler (registerUser
        initialState "s1" "alice").1 "s1" ⟨some "hi", none, none⟩
        "m1" "t1").1 "m1" "bob").1) "m1" "bob").2 =
      [.messageRead (.room "global") "m1" "bob"] := by
  decide

/-- C5 (amended): markRead is idempotent on the message state — a
second `message_read` with the same (principal, messageId) leaves the
stored messages (in particular `readBy`) unchanged — but the read
notification is re-emitted identically on every call on an existing
message, not only on the first addition. -/
theorem message_read_repeat (st : ServerState) (mid uname : String)
    (m : Message) (h : findMsg st.messages mid = some m) :
    (messageReadHandler ((messageReadHandler st mid uname).1) mid uname).1 =
      (messageReadHandler st mid uname).1 ∧
    (messageReadHandler ((messageReadHandler st mid uname).1) mid uname).2 =
      (messageReadHandler st mid uname).2 := by
  by_cases hu : uname ∈ m.readBy
  · constructor <;> simp [messageReadHandler, h, hu]
  · have hf : ∀ mm : Message,
        ((fun mm => { mm with readBy := mm.readBy ++ [uname] }) mm : Message).id
          = mm.id := fun _ => rfl
    have h1 : findMsg (updateFirst st.messages mid
        (fun mm => { mm with readBy := mm.readBy ++ [uname] })) mid =
        some { m with readBy := m.readBy ++ [uname] } := by
      rw [findMsg_updateFirst st.messages mid _ hf, h]
      rfl
    have hu1 : uname ∈ ({ m with readBy := m.readBy ++ [uname] } : Message).readBy := by
      simp
    constructor <;> simp [messageReadHandler, h, hu, h1, hu1, socketsOf]

theorem message_read_repeat_witness :
    (messageReadHandler ((messageReadHandler (sendMessageHandler (registerUser
        initialState "s1" "alice").1 "s1" ⟨some "ok", none, none⟩
        "m2" "t2").1 "m2" "carol").1) "m2" "carol").1 =
      (messageReadHandler (sendMessageHandler (registerUser
        initialState "s1" "alice").1 "s1" ⟨some "ok", none, none⟩
        "m2" "t2").1 "m2" "carol").1 := by
  have h := message_read_repeat (sendMessageHandler (registerUser
      initialState "s1" "alice").1 "s1" ⟨some "ok", none, none⟩ "m2" "t2").1
    "m2" "carol"
    { id := "m2", text := some "ok", fileUrl := none, sender := "alice",
      senderId := "s1", roomId := "global", isPrivate := false, toUser := none,
      timestamp := "t2", readBy := [], reactions := [] } (by decide)
  exact h.1

/-! ## Reactions (message_reaction) -/

theorem mem_toggle_toggle (lst : List String) (u v : String)
    (h : lst.count u ≤ 1) :
    (v ∈ toggleList (toggleList lst u) u) ↔ v ∈ lst := by
  by_cases hu : u ∈ lst
  · have h1 : toggleList lst u = lst.erase u := by simp [toggleList, hu]
    have hnotm : u ∉ lst.erase u := by
      intro hm
      have hce := List.count_erase_self u lst
      have h2 : 0 < (lst.erase u).count u := List.count_pos_iff.mpr hm
      omega
    have h2 : toggleList (lst.erase u) u = lst.erase u ++ [u] := by
      simp [toggleList, hnotm]
    rw [h1, h2]
    by_cases hv : v = u
    · subst hv; simp [hu]
    · simp [hv, List.mem_erase_of_ne hv]
  · have h1 : toggleList lst u = lst ++ [u] := by simp [toggleList, hu]
    have h2 : toggleList (lst ++ [u]) u = lst := by
      have hm : u ∈ lst ++ [u] := by simp
      simp [toggleList, hm, List.erase_append_right _ hu]
    rw [h1, h2]

theorem message_reaction_step (st : ServerState) (mid r u : String)
    (m : Message) (h : findMsg st.messages mid = some m) :
    messageReactionHandler st mid r u =
      ({ st with messages := (updateFirst st.messages mid (fun mm =>
          { mm with reactions := (aset mm.reactions r
              (toggleList ((alookup m.reactions r).getD []) u)) })) },
       (reactionTargets st m).map (fun t => Event.messageReaction t mid r u)) := by
  simp only [messageReactionHandler, h, reactionTargets, toggleList]
  by_cases hp : m.isPrivate <;> simp [hp, List.map_map, Function.comp_def]

/-- C6: toggleReaction is its own inverse: applying the
`message_reaction` handler twice with the same (principal, kind) on
the same message returns the message's reaction state (which
principals carry which reaction kind) to its prior value, and each
of the two applications emits the same reaction-changed broadcast,
addressed to the interested parties (the room for room messages, the
sender's and target's sockets for private ones). -/
theorem message_reaction_involutive (st : ServerState) (mid r u : String)
    (m : Message) (h : findMsg st.messages mid = some m)
    (hc : ((alookup m.reactions r).getD []).count u ≤ 1) :
    (∀ k v, (v ∈ reactionsOfMsg
        ((messageReactionHandler ((messageReactionHandler st mid r u).1)
          mid r u).1) mid k) ↔ v ∈ reactionsOfMsg st mid k) ∧
    (messageReactionHandler st mid r u).2 =
      (reactionTargets st m).map (fun t => Event.messageReaction t mid r u) ∧
    (messageReactionHandler ((messageReactionHandler st mid r u).1) mid r u).2 =
      (messageReactionHandler st mid r u).2 := by
  have hf1 : ∀ mm : Message, ((fun mm => { mm with reactions := (aset
      mm.reactions r (toggleList ((alookup m.reactions r).getD []) u)) }) mm
        : Message).id = mm.id := fun _ => rfl
  have hstep1 := message_reaction_step st mid r u m h
  have h1 : findMsg ((messageReactionHandler st mid r u).1).messages mid =
      some { m with reactions := (aset m.reactions r
        (toggleList ((alookup m.reactions r).getD []) u)) } := by
    rw [hstep1]
    show findMsg (updateFirst st.messages mid _) mid = _
    rw [findMsg_updateFirst _ _ _ hf1, h]
    rfl
  have hl1 : (alookup ({ m with reactions := (aset m.reactions r
      (toggleList ((alookup m.reactions r).getD []) u)) } : Message).reactions
        r).getD [] = toggleList ((alookup m.reactions r).getD []) u := by
    show (alookup (aset m.reactions r _) r).getD [] = _
    rw [alookup_aset, if_pos rfl, Option.getD_some]
  have hstep2 := message_reaction_step ((messageReactionHandler st mid r u).1)
    mid r u _ h1
  refine ⟨?_, hstep1 ▸ rfl, ?_⟩
  · intro k v
    have hm2 : findMsg ((messageReactionHandler
        ((messageReactionHandler st mid r u).1) mid r u).1).messages mid =
        some { m with reactions := (aset (aset m.reactions r
          (toggleList ((alookup m.reactions r).getD []) u)) r
          (toggleList (toggleList ((alookup m.reactions r).getD []) u) u)) } := by
      rw [hstep2]
      refine (findMsg_updateFirst _ _ _ ?_).trans ?_
      · exact fun _ => rfl
      · rw [h1]
        simp only [Option.map_some']
        rw [hl1]
    rw [reactionsOfMsg, hm2, reactionsOfMsg, h]
    simp only [Option.map_some', Option.getD_some]
    by_cases hk : k = r
    · subst hk
      rw [alookup_aset, if_pos rfl, Option.getD_some]
      exact mem_toggle_toggle _ u v hc
    · rw [alookup_aset, if_neg hk, alookup_aset, if_neg hk]
  · rw [hstep2, hstep1]
    rfl

theorem message_reaction_involutive_witness :
    ("bob" ∈ reactionsOfMsg ((messageReactionHandler ((messageReactionHandler
        (sendMessageHandler (registerUser initialState "s1" "alice").1 "s1"
          ⟨some "yo", none, none⟩ "m3" "t3").1 "m3" "like" "bob").1)
        "m3" "like" "bob").1) "m3" "like") ↔
      "bob" ∈ reactionsOfMsg (sendMessageHandler (registerUser initialState
        "s1" "alice").1 "s1" ⟨some "yo", none, none⟩ "m3" "t3").1 "m3" "like" := by
  have h := message_reaction_involutive (sendMessageHandler (registerUser
      initialState "s1" "alice").1 "s1" ⟨some "yo", none, none⟩ "m3" "t3").1
    "m3" "like" "bob"
    { id := "m3", text := some "yo", fileUrl := none, sender := "alice",
      senderId := "s1", roomId := "global", isPrivate := false, toUser := none,
      timestamp := "t3", readBy := [], reactions := [] } (by decide) (by decide)
  exact h.1 "like" "bob"

/-! ## Typing snapshots (typing) -/

/-- C9 counterexample: "alice" (socket `s1`) joins `roomA` and starts
typing there; "bob" (socket `s2`) joins `roomB` and starts typing.
The `typing_users` event emitted to `roomB` carries
`["alice", "bob"]`, although alice's typing was signalled in `roomA`
and her socket is not a member of `roomB`: the payload is the global
typing map, not a snapshot restricted to the event's room. -/
theorem typing_snapshot_counterexample :
    (typingHandler ((typingHandler ((joinRoomHandler ((joinRoomHandler
        ((registerUser ((registerUser initialState "s1" "alice").1)
          "s2" "bob").1) "s1" "roomA").1) "s2" "roomB").1)
        "s1" "roomA" true).1) "s2" "roomB" true).2 =
      [.typingSnapshot (.room "roomB") ["alice", "bob"]] ∧
    memberB ((typingHandler ((joinRoomHandler ((joinRoomHandler
        ((registerUser ((registerUser initialState "s1" "alice").1)
          "s2" "bob").1) "s1" "roomA").1) "s2" "roomB").1)
        "s1" "roomA" true).1) "roomB" "s1" = false := by
  decide

/-- C9 (amended): every `typing` event from a registered socket emits
exactly one `typing_users` snapshot to the room named in the event,
whose payload is the complete post-update list of typing display
names of the whole server (a full snapshot, never a delta) — it is
not restricted to the target room and may include typers whose
sockets are in other rooms. -/
theorem typing_snapshot_global (st : ServerState) (sid roomId : String)
    (isTyping : Bool) (u : String) (h : alookup st.users sid = some u) :
    (typingHandler st sid roomId isTyping).2 =
      [.typingSnapshot (.room roomId)
        (((typingHandler st sid roomId isTyping).1).typingUsers.map Prod.snd)] := by
  simp [typingHandler, h]

theorem typing_snapshot_global_witness :
    (typingHandler (registerUser initialState "s1" "alice").1 "s1" "global"
        true).2 =
      [.typingSnapshot (.room "global") ["alice"]] := by
  have h := typing_snapshot_global (registerUser initialState "s1" "alice").1
    "s1" "global" true "alice" (by decide)
  exact h.trans (by decide)

theorem capState_send_messages :
    ((sendMessageHandler capState "s1" ⟨some "hi", none, none⟩
        "n1" "t9").1).messages = List.replicate 1999 mB ++ [msgN] := by
  have hlook : alookup capState.users "s1" = some "alice" := rfl
  simp only [sendMessageHandler, hlook]
  rw [if_pos]
  · show ((mA :: List.replicate 1999 mB) ++ [msgN]).tail =
      List.replicate 1999 mB ++ [msgN]
    rw [List.cons_append]
    rfl
  · show 2000 < ((mA :: List.replicate 1999 mB) ++ [msgN]).length
    rw [List.length_append, List.length_cons, List.length_replicate,
      List.length_singleton]
    omega

/-- C10 counterexample: with 2000 messages already stored (the oldest
being `mA`), one more `send_message` evicts `mA` from the in-memory
message collection (`messages.shift()` on exceeding the cap),
refuting that no send of a new message removes a previously stored
message. -/
theorem message_evicted_counterexample :
    mA ∈ capState.messages ∧
    mA ∉ ((sendMessageHandler capState "s1" ⟨some "hi", none, none⟩
        "n1" "t9").1).messages := by
  constructor
  · exact List.mem_cons_self _ _
  · rw [capState_send_messages]
    intro hm
    rcases List.mem_append.mp hm with hm | hm
    · exact absurd (List.mem_replicate.mp hm).2 (by decide)
    · exact absurd (List.mem_singleton.mp hm) (by decide)

theorem map_id_updateFirst (msgs : List Message) (mid : String)
    (f : Message → Message) (hf : ∀ m, (f m).id = m.id) :
    (updateFirst msgs mid f).map Message.id = msgs.map Message.id := by
  induction msgs with
  | nil => rfl
  | cons m rest ih =>
    by_cases h : m.id = mid
    · simp [updateFirst, h, hf]
    · simp [updateFirst, h, ih]

/-- C10 (amended): no in-core operation other than a cap-exceeding
send removes a stored message: message_read and message_reaction
preserve the stored ids exactly, typing/join/leave/disconnect and
pagination do not touch the message list, private_message only
appends, and send_message preserves every stored message whenever
fewer than 2000 messages are stored; a send on a full store evicts
exactly the oldest message (see the counterexample). -/
theorem messages_never_deleted :
    (∀ st mid u2, ((messageReadHandler st mid u2).1.messages.map Message.id)
        = st.messages.map Message.id) ∧
    (∀ st mid r u2, ((messageReactionHandler st mid r u2).1.messages.map
        Message.id) = st.messages.map Message.id) ∧
    (∀ st sid room b, (typingHandler st sid room b).1.messages = st.messages) ∧
    (∀ st sid room, (joinRoomHandler st sid room).1.messages = st.messages) ∧
    (∀ st sid room, (leaveRoomHandler st sid room).1.messages = st.messages) ∧
    (∀ st sid, (disconnectHandler st sid).1.messages = st.messages) ∧
    (∀ st sid room bid lim,
      (loadOlderHandler st sid room bid lim).1.messages = st.messages) ∧
    (∀ st sid toU t f i ts, ∀ m ∈ st.messages,
      m ∈ (privateMessageHandler st sid toU t f i ts).1.messages) ∧
    (∀ st sid p i ts, st.messages.length < 2000 → ∀ m ∈ st.messages,
      m ∈ (sendMessageHandler st sid p i ts).1.messages) := by
  refine ⟨?_, ?_, ?_, ?_, ?_, ?_, ?_, ?_, ?_⟩
  · intro st mid u2
    cases hfm : findMsg st.messages mid with
    | none => simp [messageReadHandler, hfm]
    | some m =>
      by_cases hu : u2 ∈ m.readBy
      · simp [messageReadHandler, hfm, hu]
      · simp only [messageReadHandler, hfm, if_neg hu]
        exact map_id_updateFirst _ _ _ (fun _ => rfl)
  · intro st mid r u2
    cases hfm : findMsg st.messages mid with
    | none => simp [messageReactionHandler, hfm]
    | some m =>
      simp only [messageReactionHandler, hfm]
      exact map_id_updateFirst _ _ _ (fun _ => rfl)
  · intro st sid room b
    cases h : alookup st.users sid <;> simp [typingHandler, h]
  · intro st sid room
    by_cases h : room = "" <;> simp [joinRoomHandler, h]
  · intro st sid room
    by_cases h : room = ""
    · simp [leaveRoomHandler, h]
    · cases hm : alookup st.rooms room <;> simp [leaveRoomHandler, h, hm]
  · intro st sid
    cases h : alookup st.users sid <;> simp [disconnectHandler, h]
  · intro st sid room bid lim
    rfl
  · intro st sid toU t f i ts m hm
    cases h : alookup st.users sid with
    | none => simpa [privateMessageHandler, h] using hm
    | some u2 =>
      simp only [privateMessageHandler, h]
      exact List.mem_append.mpr (Or.inl hm)
  · intro st sid p i ts hlen m hm
    cases h : alookup st.users sid with
    | none => simpa [sendMessageHandler, h] using hm
    | some u2 =>
      simp only [sendMessageHandler, h]
      rw [if_neg (by simp only [List.length_append, List.length_singleton]; omega)]
      exact List.mem_append.mpr (Or.inl hm)

theorem messages_never_deleted_witness :
    mA ∈ (sendMessageHandler
        { initialState with messages := [mA], users := [("s1", "alice")] }
        "s1" ⟨some "z", none, none⟩ "n2" "t2").1.messages := by
  exact messages_never_deleted.2.2.2.2.2.2.2.2
    { initialState with messages := [mA], users := [("s1", "alice")] }
    "s1" ⟨some "z", none, none⟩ "n2" "t2" (by decide) mA (by decide)

/-! ## Persistence ordering and failure behavior -/

/-- C1 counterexample: when `Message.create` rejects, the `server.js`
`send_message` handler's complete observable behavior is to log the
error: it emits zero delivery events but also surfaces no error of
any kind to the sender (the handler takes no ack callback and sends
no error event), refuting that a persistence failure aborts the send
with an error surfaced to the sender. -/
theorem persist_failure_counterexample :
    srvSendMessageTrace "global" (.failed "db down") =
      [.persistAttempt, .persistFailed, .logError] ∧
    srvEmits (srvSendMessageTrace "global" (.failed "db down")) = [] :=
  ⟨rfl, rfl⟩

/-- C1 (amended): persistence happens-before fan-out — in both send
handlers of `server.js` every delivery emission is preceded in the
run trace by the successful completion of the persistence call, and
a failed persistence aborts the send with zero delivery events (but
silently: no error is surfaced to the sender, the failure is only
logged); in the in-memory handlers, every delivered room or private
message is exactly a message present in the post-handler store. -/
theorem persist_happens_before_fanout :
    (∀ room persist i s, (srvSendMessageTrace room persist).get? i = some s →
        s.isDeliver = true →
        ∃ j, j < i ∧ (srvSendMessageTrace room persist).get? j =
          some .persistOk) ∧
    (∀ room e, srvEmits (srvSendMessageTrace room (.failed e)) = []) ∧
    (∀ a b persist i s, (srvPrivateMessageTrace a b persist).get? i = some s →
        s.isDeliver = true →
        ∃ j, j < i ∧ (srvPrivateMessageTrace a b persist).get? j =
          some .persistOk) ∧
    (∀ a b e, srvEmits (srvPrivateMessageTrace a b (.failed e)) = []) ∧
    (∀ st sid p i ts t m, Event.receiveMessage t m ∈
        (sendMessageHandler st sid p i ts).2 →
      m ∈ (sendMessageHandler st sid p i ts).1.messages) ∧
    (∀ st sid toU t f i ts tg m, Event.privateMsg tg m ∈
        (privateMessageHandler st sid toU t f i ts).2 →
      m ∈ (privateMessageHandler st sid toU t f i ts).1.messages) := by
  refine ⟨?_, ?_, ?_, ?_, ?_, ?_⟩
  · intro room persist i s hget hdel
    cases persist with
    | ok pid pts =>
      simp only [srvSendMessageTrace] at hget ⊢
      rcases i with _ | _ | _ | n
      · simp only [List.get?] at hget
        cases hget
        simp [SrvStep.isDeliver] at hdel
      · simp only [List.get?] at hget
        cases hget
        simp [SrvStep.isDeliver] at hdel
      · exact ⟨1, by omega, rfl⟩
      · simp [List.get?] at hget
    | failed err =>
      simp only [srvSendMessageTrace] at hget
      rcases i with _ | _ | _ | n
      · simp only [List.get?] at hget
        cases hget
        simp [SrvStep.isDeliver] at hdel
      · simp only [List.get?] at hget
        cases hget
        simp [SrvStep.isDeliver] at hdel
      · simp only [List.get?] at hget
        cases hget
        simp [SrvStep.isDeliver] at hdel
      · simp [List.get?] at hget
  · intro room e
    rfl
  · intro a b persist i s hget hdel
    cases persist with
    | ok pid pts =>
      simp only [srvPrivateMessageTrace] at hget ⊢
      rcases i with _ | _ | _ | _ | n
      · simp only [List.get?] at hget
        cases hget
        simp [SrvStep.isDeliver] at hdel
      · simp only [List.get?] at hget
        cases hget
        simp [SrvStep.isDeliver] at hdel
      · exact ⟨1, by omega, rfl⟩
      · exact ⟨1, by omega, rfl⟩
      · simp [List.get?] at hget
    | failed err =>
      simp only [srvPrivateMessageTrace] at hget
      rcases i with _ | _ | _ | n
      · simp only [List.get?] at hget
        cases hget
        simp [SrvStep.isDeliver] at hdel
      · simp only [List.get?] at hget
        cases hget
        simp [SrvStep.isDeliver] at hdel
      · simp only [List.get?] at hget
        cases hget
        simp [SrvStep.isDeliver] at hdel
      · simp [List.get?] at hget
  · intro a b e
    rfl
  · intro st sid p i ts t m hmem
    cases h : alookup st.users sid with
    | none => simp [sendMessageHandler, h] at hmem
    | some u2 =>
      simp [sendMessageHandler, h] at hmem
      obtain ⟨ht, hm2⟩ := hmem
      subst hm2
      simp only [sendMessageHandler, h]
      by_cases hc : 2000 < (st.messages ++
          [({ id := i, text := jsOrNull p.text, fileUrl := jsOrNull p.fileUrl,
              sender := u2, senderId := sid, roomId := jsOrGlobal p.roomId,
              isPrivate := false, toUser := none, timestamp := ts,
              readBy := [], reactions := [] } : Message)]).length
      · rw [if_pos hc]
        have hne : st.messages ≠ [] := by
          intro he
          rw [he] at hc
          simp at hc
        cases hms : st.messages with
        | nil => exact absurd hms hne
        | cons x rest =>
          rw [List.cons_append, List.tail_cons]
          exact List.mem_append.mpr (Or.inr (by simp))
      · rw [if_neg hc]
        exact List.mem_append.mpr (Or.inr (by simp))
  · intro st sid toU t f i ts tg m hmem
    cases h : alookup st.users sid with
    | none => simp [privateMessageHandler, h] at hmem
    | some u2 =>
      simp [privateMessageHandler, h] at hmem
      have hm2 : m =
          ({ id := i, text := jsOrNull t, fileUrl := jsOrNull f,
             sender := u2, senderId := sid, roomId := "global",
             isPrivate := true, toUser := some toU, timestamp := ts,
             readBy := [], reactions := [] } : Message) := by
        rcases hmem with ⟨s, _, _, hm2⟩ | ⟨_, hm2⟩
        · exact hm2.symm
        · exact hm2
      subst hm2
      simp only [privateMessageHandler, h]
      exact List.mem_append.mpr (Or.inr (by simp))

theorem persist_happens_before_fanout_witness :
    ∃ j, j < 2 ∧ (srvSendMessageTrace "general" (.ok "i1" "ts1")).get? j =
      some .persistOk :=
  persist_happens_before_fanout.1 "general" (.ok "i1" "ts1") 2
    (.deliverRoom "general") rfl rfl

theorem findIdx?_some_lt (l : List α) (p : α → Bool) (s i : Nat)
    (h : l.findIdx? p s = some i) : i < s + l.length := by
  induction l generalizing s with
  | nil => simp [List.findIdx?] at h
  | cons a rest ih =>
    rw [List.findIdx?_cons] at h
    by_cases hp : p a
    · rw [if_pos hp] at h
      cases h
      simp
    · rw [if_neg hp] at h
      have := ih (s + 1) h
      simp only [List.length_cons]
      omega

theorem jsSliceFrom_neg (l : List α) (lim : Int) (h : 1 ≤ lim) :
    jsSliceFrom l (-lim) = lastN lim.toNat l := by
  unfold jsSliceFrom jsSlice2 jsIdx lastN
  rw [if_neg (by omega : ¬(l.length : Int) < 0), if_pos (by omega : -lim < 0)]
  have h1 : (min (l.length : Int) (l.length : Int)).toNat = l.length := by omega
  have h2 : (max ((l.length : Int) + -lim) 0).toNat = l.length - lim.toNat := by
    omega
  rw [h1, h2, List.take_length]

theorem jsSlice2_found (l : List α) (idx : Nat) (lim : Int) (h : 1 ≤ lim)
    (hidx : idx < l.length) :
    jsSlice2 l (max 0 ((idx : Int) - lim)) (idx : Int) =
      lastN lim.toNat (l.take idx) := by
  unfold jsSlice2 jsIdx lastN
  rw [if_neg (by omega : ¬(idx : Int) < 0),
    if_neg (by omega : ¬max 0 ((idx : Int) - lim) < 0)]
  have h1 : (min ((idx : Int)) (l.length : Int)).toNat = idx := by omega
  have h2 : (min (max 0 ((idx : Int) - lim)) (l.length : Int)).toNat =
      idx - lim.toNat := by omega
  rw [h1, h2, List.length_take, min_eq_left (by omega : idx ≤ l.length)]

theorem lastN_length_le (n : Nat) (l : List α) : (lastN n l).length ≤ n := by
  unfold lastN
  rw [List.length_drop]
  omega

theorem lastN_sublist (n : Nat) (l : List α) : (lastN n l).Sublist l :=
  List.drop_sublist _ _

/-- C8 counterexample: with one stored global message and
`pageSize = 0`, the handler returns that message (JS `slice(-0)` is
`slice(0)`, the whole array), i.e. more than `pageSize` messages —
the claim fails for pageSize 0. -/
theorem load_older_counterexample :
    (loadOlder [mA] "global" none 0).length = 1 ∧
    ¬((loadOlder [mA] "global" none 0).length ≤ 0) := by
  decide

/-- C8 (amended): for every room, cursor and positive pageSize, the
`load_older` request behaves exactly as the spec's pagination
contract (`pageSpec`): it returns at most pageSize non-private
messages of the room, in stored oldest-first order (a sublist of the
room history); a null cursor yields the most recent pageSize, an
unknown cursor falls back to the most recent pageSize, a found
cursor yields the most recent pageSize of the strictly older
entries, and when no older messages remain the result is the empty
list, not an error.  (With pageSize 0 the `slice(-0)` branches
instead return the whole filtered history, see the
counterexample.) -/
theorem load_older_page (msgs : List Message) (roomId : String)
    (beforeId : Option String) (lim : Int) (h1 : 1 ≤ lim)
    (hb : beforeId ≠ some "") :
    loadOlder msgs roomId beforeId lim = pageSpec msgs roomId beforeId
      lim.toNat ∧
    (loadOlder msgs roomId beforeId lim).length ≤ lim.toNat ∧
    (loadOlder msgs roomId beforeId lim).Sublist
      (msgs.filter (fun m => m.roomId = roomId && !m.isPrivate)) ∧
    (∀ m ∈ loadOlder msgs roomId beforeId lim,
      m.roomId = roomId ∧ m.isPrivate = false) ∧
    (∀ b, beforeId = some b →
      (msgs.filter (fun m => m.roomId = roomId && !m.isPrivate)).findIdx?
        (fun m => m.id = b) = some 0 →
      loadOlder msgs roomId beforeId lim = []) := by
  have hshape : ∃ X : List Message,
      X.Sublist (msgs.filter (fun m => m.roomId = roomId && !m.isPrivate)) ∧
      loadOlder msgs roomId beforeId lim = lastN lim.toNat X ∧
      pageSpec msgs roomId beforeId lim.toNat = lastN lim.toNat X := by
    cases beforeId with
    | none =>
      exact ⟨_, List.Sublist.refl _, jsSliceFrom_neg _ lim h1, rfl⟩
    | some b =>
      have hbne : ¬b = "" := fun he => hb (by rw [he])
      cases hfi : (msgs.filter
          (fun m => m.roomId = roomId && !m.isPrivate)).findIdx?
            (fun m => m.id = b) with
      | none =>
        refine ⟨_, List.Sublist.refl _, ?_, ?_⟩
        · simp only [loadOlder, if_neg hbne, hfi]
          exact jsSliceFrom_neg _ lim h1
        · simp only [pageSpec, hfi]
      | some idx =>
        have hidx : idx < (msgs.filter
            (fun m => m.roomId = roomId && !m.isPrivate)).length := by
          have := findIdx?_some_lt _ _ 0 idx hfi
          omega
        refine ⟨_, List.take_sublist idx _, ?_, ?_⟩
        · simp only [loadOlder, if_neg hbne, hfi]
          exact jsSlice2_found _ idx lim h1 hidx
        · simp only [pageSpec, hfi]
  obtain ⟨X, hXsub, hload, hspec⟩ := hshape
  refine ⟨hload.trans hspec.symm, ?_, ?_, ?_, ?_⟩
  · rw [hload]
    exact lastN_length_le _ _
  · rw [hload]
    exact (lastN_sublist _ _).trans hXsub
  · intro m hm
    rw [hload] at hm
    have hmF := hXsub.mem ((lastN_sublist _ _).mem hm)
    have := (List.mem_filter.mp hmF).2
    simpa using this
  · intro b hbeq hfi0
    subst hbeq
    have hbne : ¬b = "" := fun he => hb (by rw [he])
    simp only [loadOlder, if_neg hbne, hfi0]
    rw [show ((0 : Nat) : Int) = 0 by rfl]
    have : jsSlice2 (msgs.filter (fun m => m.roomId = roomId && !m.isPrivate))
        (max 0 (0 - lim)) 0 = lastN lim.toNat ((msgs.filter
          (fun m => m.roomId = roomId && !m.isPrivate)).take 0) := by
      have hidx : (0 : Nat) < (msgs.filter
          (fun m => m.roomId = roomId && !m.isPrivate)).length := by
        have := findIdx?_some_lt _ _ 0 0 hfi0
        omega
      simpa using jsSlice2_found _ 0 lim h1 hidx
    rw [show (max 0 ((0:Int) - lim)) = max 0 (0 - lim) by norm_num] at this
    rw [this]
    simp [lastN]

theorem load_older_page_witness :
    (loadOlder [mA] "global" none 20).length ≤ (20 : Int).toNat :=
  (load_older_page [mA] "global" none 20 (by decide) (by decide)).2.1

end Chat
